import Mathlib

/-!
Shallow embedding of two source files of the waveterm repository:

* the `wshclient` request helpers (`sendRpcRequestCallHelper`, `rtnErr`,
  `sendRpcRequestResponseStreamHelper`).  The RPC transport (`wshutil.WshRpc`,
  an external collaborator) is modelled as a record of the outcomes its three
  send primitives would produce for the call at hand; the goroutine/channel
  interaction of a streaming call is modelled by the finite trace of channel
  events (sends and closes) the worker performs, which covers every
  terminating transport behavior.  `utilfn.ReUnmarshal` into `T` is modelled
  by an arbitrary `decode : E → Except String T`, and the Go zero value of a
  type parameter `T` by `default` of an `Inhabited` instance.

* `pkg/wsl/wsl-util.go` probe and install helpers.  The WSL command
  execution port (`client.WslCommand(ctx, cmdStr).Output()`, an external
  collaborator) is modelled as a record holding the captured-output result of
  each probe command the function runs, `Except String String` standing for
  `([]byte, error)`.  `goToLower` and `goTrim` model Go's
  `strings.ToLower` and `strings.TrimSpace`; they agree on the ASCII data
  these probes handle.
-/

-- Decidable equality of `Except` results, used to evaluate the embedded
-- functions at concrete inputs.
deriving instance DecidableEq for Except

/-- Go struct `wshrpc.RpcOpts`: per-call options.  Only `NoResponse` steers
the helpers under study; `Timeout` is carried as configuration.  The Go zero
value corresponds to `emptyRpcOpts`. -/
structure RpcOpts where
  NoResponse : Bool := false
  Timeout : Int := 0
  deriving DecidableEq

/-- The fresh options value the helpers substitute for a nil `*RpcOpts`. -/
def emptyRpcOpts : RpcOpts := ⟨false, 0⟩

/-- Handler of one streaming exchange (the value `SendComplexRequest`
returns): `pulls` is the sequence of successive `NextResponse` results, and
`ResponseDone()` becomes true exactly when the list is exhausted.  A finite
list models every terminating behavior of the transport. -/
structure StreamHandler (E : Type) where
  pulls : List (Except String E)

/-- The RPC transport port `wshutil.WshRpc`, modelled by the outcome each of
its three send primitives would produce for the call at hand (`E` is the
type of raw response envelopes). -/
structure WshRpc (E : Type) where
  sendCommandResult : Except String Unit
  sendRpcRequestResult : Except String E
  sendComplexRequestResult : Except String (StreamHandler E)

/-- Go struct `wshrpc.RespOrErrorUnion[T]` with fields `Response T` and
`Error error`; `Error = none` models a nil Go error, and the zero value the
Go code leaves in `Response` when only `Error` is set is `default`. -/
structure RespOrErrorUnion (T : Type) where
  Response : T
  Error : Option String
  deriving DecidableEq

/-- Message of the error `errors.New("nil wshrpc passed to wshclient")`. -/
def nilWshRpcMsg : String := "nil wshrpc passed to wshclient"

/-- Transport operations a unary call can perform, recorded so that the
fire-and-forget contract (send only, never await or decode) is a provable
statement about the helper. -/
inductive RpcOp where
  | sendCommand
  | sendRpcRequest
  | reUnmarshal
  deriving DecidableEq

/-- Embedding of `sendRpcRequestCallHelper[T]`.  `w = none` models a nil
`*WshRpc`; `opts0 = none` models a nil `*RpcOpts` (replaced by a fresh zero
value, as in the source); `decode` models `utilfn.ReUnmarshal` of the raw
envelope into `T`.  The result pairs the Go `(T, error)` return value with
the list of transport operations performed, in order. -/
def sendRpcRequestCallHelper {E D T : Type} [Inhabited T] (w : Option (WshRpc E))
    (command : String) (data : D) (opts0 : Option RpcOpts)
    (decode : E → Except String T) : (T × Option String) × List RpcOp :=
  let opts := opts0.getD emptyRpcOpts
  match w with
  | none => ((default, some nilWshRpcMsg), [])
  | some rpc =>
    if opts.NoResponse then
      match rpc.sendCommandResult with
      | Except.error err => ((default, some err), [RpcOp.sendCommand])
      | Except.ok _ => ((default, none), [RpcOp.sendCommand])
    else
      match rpc.sendRpcRequestResult with
      | Except.error err => ((default, some err), [RpcOp.sendRpcRequest])
      | Except.ok resp =>
        match decode resp with
        | Except.error err =>
          ((default, some err), [RpcOp.sendRpcRequest, RpcOp.reUnmarshal])
        | Except.ok respData =>
          ((respData, none), [RpcOp.sendRpcRequest, RpcOp.reUnmarshal])

/-- Events observable on the response channel: a value delivered to the
consumer, or `close(ch)`. -/
inductive ChanEvent (A : Type) where
  | send (a : A)
  | close
  deriving DecidableEq

/-- Embedding of `rtnErr[T]`: the spawned goroutine sends one error value on
the channel and closes it. -/
def rtnErr {T : Type} [Inhabited T] (err : String) :
    List (ChanEvent (RespOrErrorUnion T)) :=
  [ChanEvent.send ⟨default, some err⟩, ChanEvent.close]

/-- Body of the worker goroutine of `sendRpcRequestResponseStreamHelper`
(the events it sends, the deferred close excluded): while `ResponseDone()`
is false it pulls `NextResponse()`; a transport error or a `ReUnmarshal`
failure is sent as an error value and stops the loop; otherwise the decoded
value is sent and the loop continues. -/
def streamLoop {E T : Type} [Inhabited T] (decode : E → Except String T) :
    List (Except String E) → List (ChanEvent (RespOrErrorUnion T))
  | [] => []
  | Except.error err :: _ => [ChanEvent.send ⟨default, some err⟩]
  | Except.ok resp :: rest =>
    match decode resp with
    | Except.error err => [ChanEvent.send ⟨default, some err⟩]
    | Except.ok respData => ChanEvent.send ⟨respData, none⟩ :: streamLoop decode rest

/-- Embedding of `sendRpcRequestResponseStreamHelper[T]`: the trace of
channel events produced on the returned channel.  A nil `*WshRpc` or a
failing `SendComplexRequest` goes through `rtnErr`; otherwise the worker
goroutine runs the pull loop and the deferred `close(respChan)` fires when
the loop exits. -/
def sendRpcRequestResponseStreamHelper {E D T : Type} [Inhabited T]
    (w : Option (WshRpc E)) (command : String) (data : D) (opts0 : Option RpcOpts)
    (decode : E → Except String T) : List (ChanEvent (RespOrErrorUnion T)) :=
  let _opts := opts0.getD emptyRpcOpts
  match w with
  | none => rtnErr nilWshRpcMsg
  | some rpc =>
    match rpc.sendComplexRequestResult with
    | Except.error err => rtnErr err
    | Except.ok reqHandler => streamLoop decode reqHandler.pulls ++ [ChanEvent.close]

/-- Number of `close` events in a channel trace. -/
def countClose {A : Type} : List (ChanEvent A) → Nat
  | [] => 0
  | ChanEvent.send _ :: rest => countClose rest
  | ChanEvent.close :: rest => countClose rest + 1

/-- Whether a channel event delivers a value. -/
def isSend {A : Type} : ChanEvent A → Bool
  | ChanEvent.send _ => true
  | ChanEvent.close => false

/-- Holds when no value is delivered after a value whose error component is
set: once a send with `Error` set occurs, no later event is a send. -/
def noSendAfterError {T : Type} : List (ChanEvent (RespOrErrorUnion T)) → Bool
  | [] => true
  | ChanEvent.send u :: rest =>
    if u.Error.isSome then rest.all (fun ev => ! isSend ev)
    else noSendAfterError rest
  | ChanEvent.close :: rest => noSendAfterError rest

/-- Whitespace predicate of Go's `strings.TrimSpace` restricted to the
ASCII range (space, tab, newline, carriage return, vertical tab, form
feed); the probe outputs under study are ASCII. -/
def goIsSpace (c : Char) : Bool :=
  c == ' ' || c == '\t' || c == '\n' || c == '\r' || c == Char.ofNat 11 || c == Char.ofNat 12

/-- Go's `strings.TrimSpace`: drop leading and trailing whitespace.
Implemented over the character list so that it evaluates inside the
kernel. -/
def goTrim (s : String) : String :=
  ⟨((s.data.dropWhile goIsSpace).reverse.dropWhile goIsSpace).reverse⟩

/-- Go's `strings.ToLower` (ASCII range): lowercase every character. -/
def goToLower (s : String) : String :=
  ⟨s.data.map Char.toLower⟩

/-- Result of running one remote command through the WSL command execution
port and capturing its combined output (`cmd.Output()`). -/
abbrev CmdResult := Except String String

/-- Port behavior for the three command variants `GetClientOs` runs, in the
order the source tries them: `uname -s`, `echo %OS%`, `echo $env:OS`. -/
structure OsPort where
  unameS : CmdResult
  echoOS : CmdResult
  echoEnvOS : CmdResult

/-- Port behavior for the three command variants `GetClientArch` runs, in
order: `uname -m`, `echo %PROCESSOR_ARCHITECTURE%`, and the PowerShell
`echo $env:PROCESSOR_ARCHITECTURE`. -/
structure ArchPort where
  unameM : CmdResult
  echoPA : CmdResult
  echoEnvPA : CmdResult

/-- Aggregate failure built by the probes' final
`fmt.Errorf("unable to determine <fact>: ...", unixErr, cmdErr, psErr)`:
the fact being probed and the three per-variant errors.  `none` models a nil
Go error, which the source passes to `fmt.Errorf` when that echo variant ran
successfully but printed the literal unexpanded placeholder. -/
structure ProbeFailure where
  fact : String
  unixErr : String
  cmdErr : Option String
  psErr : Option String
  deriving DecidableEq

/-- Go's `strings.Split(s, "_")[0]`: everything before the first
underscore, or the whole string when there is none. -/
def firstUnderscoreSegment (s : String) : String :=
  ⟨s.data.takeWhile (fun c => c != '_')⟩

/-- Classifies one echo-based probe variant: `some e?` when the variant
missed (command error `some msg`, or `none` when it succeeded but printed
the literal placeholder), `none` when the variant hit. -/
def variantMiss (r : CmdResult) (placeholder : String) : Option (Option String) :=
  match r with
  | Except.error e => some (some e)
  | Except.ok out => if goTrim out = placeholder then some none else none

/-- PowerShell tail of `GetClientOs`: the `echo $env:OS` branch reached
after `uname -s` failed (with `unixErr`) and the cmd variant missed (with
per-variant error `cmdErr`). -/
def getClientOsPs (r : CmdResult) (unixErr : String) (cmdErr : Option String) :
    Except ProbeFailure String :=
  match r with
  | Except.ok out =>
    if goTrim out ≠ "$env:OS" then
      Except.ok (firstUnderscoreSegment (goTrim (goToLower out)))
    else Except.error ⟨"os", unixErr, cmdErr, none⟩
  | Except.error psErr => Except.error ⟨"os", unixErr, cmdErr, some psErr⟩

/-- Embedding of `GetClientOs`: `uname -s` output is lowercased and trimmed;
the `echo %OS%` and `echo $env:OS` outputs are additionally split on `_`
with the first segment kept, after rejection of the literal unexpanded
placeholder; all variants failing yields the aggregate error. -/
def GetClientOs (p : OsPort) : Except ProbeFailure String :=
  match p.unameS with
  | Except.ok out => Except.ok (goTrim (goToLower out))
  | Except.error unixErr =>
    match p.echoOS with
    | Except.ok out =>
      if goTrim out ≠ "%OS%" then
        Except.ok (firstUnderscoreSegment (goTrim (goToLower out)))
      else getClientOsPs p.echoEnvOS unixErr none
    | Except.error cmdErr => getClientOsPs p.echoEnvOS unixErr (some cmdErr)

/-- PowerShell tail of `GetClientArch`: the `echo
$env:PROCESSOR_ARCHITECTURE` branch reached after `uname -m` failed and the
cmd variant missed. -/
def getClientArchPs (r : CmdResult) (unixErr : String) (cmdErr : Option String) :
    Except ProbeFailure String :=
  match r with
  | Except.ok out =>
    if goTrim out ≠ "$env:PROCESSOR_ARCHITECTURE" then
      Except.ok (goTrim (goToLower out))
    else Except.error ⟨"architecture", unixErr, cmdErr, none⟩
  | Except.error psErr => Except.error ⟨"architecture", unixErr, cmdErr, some psErr⟩

/-- Embedding of `GetClientArch`: `uname -m` output is lowercased and
trimmed and exactly the value `x86_64` is replaced by `x64`; the cmd and
PowerShell echo variants are lowercased and trimmed after placeholder
rejection (no substitution there); all variants failing yields the
aggregate error. -/
def GetClientArch (p : ArchPort) : Except ProbeFailure String :=
  match p.unameM with
  | Except.ok out =>
    let formatted := goTrim (goToLower out)
    if formatted = "x86_64" then Except.ok "x64" else Except.ok formatted
  | Except.error unixErr =>
    match p.echoPA with
    | Except.ok out =>
      if goTrim out ≠ "%PROCESSOR_ARCHITECTURE%" then
        Except.ok (goTrim (goToLower out))
      else getClientArchPs p.echoEnvPA unixErr none
    | Except.error cmdErr => getClientArchPs p.echoEnvPA unixErr (some cmdErr)

/-- Port behavior for the three command variants `GetWshPath` runs, in
order: `which wsh`, `where.exe wsh`, and the cmd-syntax directory probe
under the user profile. -/
structure WshPathPort where
  whichWsh : CmdResult
  whereWsh : CmdResult
  cmdProbe : CmdResult

/-- The fixed default path `GetWshPath` falls back to. -/
def defaultWshPath : String := "~/.waveterm/bin/wsh"

/-- Embedding of `GetWshPath`: first successful variant wins with its
trimmed output; the cmd-syntax probe additionally rejects the sentinel
output `none`; otherwise the fixed default path is returned.  Total by
construction, mirroring the Go signature without an error return. -/
def GetWshPath (p : WshPathPort) : String :=
  match p.whichWsh with
  | Except.ok out => goTrim out
  | Except.error _ =>
    match p.whereWsh with
    | Except.ok out => goTrim out
    | Except.error _ =>
      match p.cmdProbe with
      | Except.ok out => if goTrim out ≠ "none" then goTrim out else defaultWshPath
      | Except.error _ => defaultWshPath

/-- Port behavior for the two command variants `hasBashInstalled` runs:
`which bash` then `where.exe bash`. -/
structure WslCmdPort where
  whichBash : CmdResult
  whereBash : CmdResult

/-- A bash-discovery variant hits when the command succeeds with non-empty
output (`whichErr == nil && len(out) != 0` in the source). -/
def bashProbeHit : CmdResult → Bool
  | Except.ok out => out.length ≠ 0
  | Except.error _ => false

/-- Embedding of `hasBashInstalled`: `(bool, error)` result.  Every return
statement of the source carries a nil error, modelled as `none`. -/
def hasBashInstalled (p : WslCmdPort) : Bool × Option String :=
  if bashProbeHit p.whichBash then (true, none)
  else if bashProbeHit p.whereBash then (true, none)
  else (false, none)

/-- Environment of one `CpHostToRemote` run: the bash-discovery port, the
outcomes of the stdin-pipe open, the process start, and the local source
file open, plus the behavior of the remote process after the byte copy
begins (its exit code and how many bytes it consumed) — which the source
never inspects. -/
structure CpEnv where
  bash : WslCmdPort
  stdinPipe : Except String Unit
  start : Except String Unit
  openSource : Except String Unit
  remoteExitCode : Int
  copiedBytes : Nat

/-- Message of the wrapped error `fmt.Errorf("cannot open local file %s to
send to host: %v", sourcePath, err)`. -/
def cpOpenErrMsg (sourcePath : String) (e : String) : String :=
  "cannot open local file " ++ sourcePath ++ " to send to host: " ++ e

/-- Tail of `CpHostToRemote` after the bash check: template selection and
rendering are infallible (`template.Must` on constant templates, `Execute`
error discarded); then the stdin pipe is opened, the process started, the
local source opened — each failure returned immediately — and after the
copy goroutine, the `Kill` and the `Wait`, nil is returned unconditionally
with no inspection of the remote outcome. -/
def cpAfterBashCheck (env : CpEnv) (sourcePath : String) : Option String :=
  match env.stdinPipe with
  | Except.error e => some e
  | Except.ok _ =>
    match env.start with
    | Except.error e => some e
    | Except.ok _ =>
      match env.openSource with
      | Except.error e => some (cpOpenErrMsg sourcePath e)
      | Except.ok _ => none

/-- Embedding of `CpHostToRemote` (the returned error value; `destPath`
only feeds the rendered template, which cannot fail): a non-nil error from
`hasBashInstalled` is returned first, then the pipe/start/open sequence of
`cpAfterBashCheck` runs. -/
def CpHostToRemote (env : CpEnv) (sourcePath : String) (destPath : String) :
    Option String :=
  let probe := hasBashInstalled env.bash
  match probe.2 with
  | some e => some e
  | none => cpAfterBashCheck env sourcePath

/-- Appending traces adds their close counts. -/
theorem countClose_append {A : Type} (xs ys : List (ChanEvent A)) :
    countClose (xs ++ ys) = countClose xs + countClose ys := by
  induction xs with
  | nil => simp [countClose]
  | cons head rest ih =>
    cases head with
    | send a => simpa [countClose] using ih
    | close =>
      simp [countClose, ih]
      omega

/-- The worker loop never closes the channel itself (the close is the
deferred one). -/
theorem streamLoop_countClose {E T : Type} [Inhabited T] (decode : E → Except String T)
    (pulls : List (Except String E)) : countClose (streamLoop decode pulls) = 0 := by
  induction pulls with
  | nil => rfl
  | cons head rest ih =>
    cases head with
    | error err => rfl
    | ok resp =>
      cases hdec : decode resp with
      | error err => simp [streamLoop, hdec, countClose]
      | ok v => simp [streamLoop, hdec, countClose, ih]

/-- The worker loop followed by the deferred close never delivers a value
after an error value. -/
theorem streamLoop_noSendAfterError {E T : Type} [Inhabited T]
    (decode : E → Except String T) (pulls : List (Except String E)) :
    noSendAfterError (streamLoop decode pulls ++ [ChanEvent.close]) = true := by
  induction pulls with
  | nil => rfl
  | cons head rest ih =>
    cases head with
    | error err => rfl
    | ok resp =>
      cases hdec : decode resp with
      | error err => simp [streamLoop, hdec, noSendAfterError, isSend]
      | ok v =>
        simpa [streamLoop, hdec, noSendAfterError] using ih

/-- Every value the worker loop delivers is either an error value carrying
the zero response, or a successfully decoded envelope with nil error. -/
theorem streamLoop_send_mem {E T : Type} [Inhabited T] (decode : E → Except String T)
    (pulls : List (Except String E)) (u : RespOrErrorUnion T)
    (hmem : ChanEvent.send u ∈ streamLoop decode pulls) :
    (u.Response = default ∧ u.Error.isSome = true) ∨
      (u.Error = none ∧ ∃ e, decode e = Except.ok u.Response) := by
  induction pulls with
  | nil => simp [streamLoop] at hmem
  | cons head rest ih =>
    cases head with
    | error err =>
      simp [streamLoop] at hmem
      subst hmem
      exact Or.inl ⟨rfl, rfl⟩
    | ok resp =>
      cases hdec : decode resp with
      | error err =>
        simp [streamLoop, hdec] at hmem
        subst hmem
        exact Or.inl ⟨rfl, rfl⟩
      | ok v =>
        simp [streamLoop, hdec] at hmem
        rcases hmem with h | h
        · subst h
          exact Or.inr ⟨rfl, resp, hdec⟩
        · exact ih h

/-- On a run of decodable envelopes the worker loop delivers exactly their
decoded values, in order. -/
theorem streamLoop_map_ok {E T : Type} [Inhabited T] (decode : E → Except String T)
    (envs : List E) (f : E → T) (hdec : ∀ e ∈ envs, decode e = Except.ok (f e)) :
    streamLoop decode (envs.map Except.ok) =
      envs.map (fun e => ChanEvent.send ⟨f e, none⟩) := by
  induction envs with
  | nil => rfl
  | cons head rest ih =>
    have hhead : decode head = Except.ok (f head) := hdec head (by simp)
    simp [streamLoop, hhead]
    exact ih (fun e he => hdec e (by simp [he]))

/-- Claim C1: for every element type and transport behavior, the channel a
streaming call returns is closed exactly once, no value is delivered after a
value whose error component is set, and when initiating the request fails
(nil transport or `SendComplexRequest` error) the channel carries exactly
one error value and is then closed with no further values. -/
theorem c1_stream_channel_discipline {E D T : Type} [Inhabited T]
    (w : Option (WshRpc E)) (command : String) (data : D) (opts0 : Option RpcOpts)
    (decode : E → Except String T) :
    countClose (sendRpcRequestResponseStreamHelper w command data opts0 decode) = 1 ∧
    noSendAfterError (sendRpcRequestResponseStreamHelper w command data opts0 decode) = true ∧
    ((w = none ∨ ∃ rpc err, w = some rpc ∧ rpc.sendComplexRequestResult = Except.error err) →
      ∃ e, sendRpcRequestResponseStreamHelper w command data opts0 decode =
        [ChanEvent.send ⟨default, some e⟩, ChanEvent.close]) := by
  cases w with
  | none => exact ⟨rfl, rfl, fun _ => ⟨nilWshRpcMsg, rfl⟩⟩
  | some rpc =>
    cases hreq : rpc.sendComplexRequestResult with
    | error err =>
      refine ⟨?_, ?_, fun _ => ⟨err, ?_⟩⟩ <;>
        simp [sendRpcRequestResponseStreamHelper, hreq, rtnErr, countClose,
          noSendAfterError, isSend]
    | ok reqHandler =>
      refine ⟨?_, ?_, ?_⟩
      · simp [sendRpcRequestResponseStreamHelper, hreq, countClose_append,
          streamLoop_countClose, countClose]
      · simpa [sendRpcRequestResponseStreamHelper, hreq] using
          streamLoop_noSendAfterError decode reqHandler.pulls
      · rintro (h | ⟨rpc2, err, heq, herr⟩)
        · exact absurd h (by simp)
        · injection heq with h2
          subst h2
          rw [hreq] at herr
          simp at herr

/-- Witness for C1 at a nil transport over concrete types. -/
theorem c1_stream_channel_discipline_witness :
    countClose (sendRpcRequestResponseStreamHelper (E := Nat) (D := Nat) (T := Nat)
        none "cmd" 0 none (fun n => Except.ok n)) = 1 ∧
    (∃ e, sendRpcRequestResponseStreamHelper (E := Nat) (D := Nat) (T := Nat)
        none "cmd" 0 none (fun n => Except.ok n) =
      [ChanEvent.send ⟨0, some e⟩, ChanEvent.close]) := by
  have h := c1_stream_channel_discipline (E := Nat) (D := Nat) (T := Nat)
    none "cmd" 0 none (fun n => Except.ok n)
  exact ⟨h.1, h.2.2 (Or.inl rfl)⟩

/-- Claim C2: with `NoResponse` set and a non-nil transport, the unary
helper performs only the fire-and-forget send — it never awaits or decodes a
response envelope — and returns the zero value of `T` with nil error when
the send succeeds, and the send's error with the zero value when the send
fails. -/
theorem c2_no_response_fire_and_forget {E D T : Type} [Inhabited T] (rpc : WshRpc E)
    (command : String) (data : D) (opts : RpcOpts) (decode : E → Except String T)
    (hnr : opts.NoResponse = true) :
    (sendRpcRequestCallHelper (some rpc) command data (some opts) decode).2 =
      [RpcOp.sendCommand] ∧
    (rpc.sendCommandResult = Except.ok () →
      sendRpcRequestCallHelper (some rpc) command data (some opts) decode =
        ((default, none), [RpcOp.sendCommand])) ∧
    (∀ e, rpc.sendCommandResult = Except.error e →
      sendRpcRequestCallHelper (some rpc) command data (some opts) decode =
        ((default, some e), [RpcOp.sendCommand])) := by
  cases hsc : rpc.sendCommandResult with
  | error err =>
    refine ⟨?_, ?_, ?_⟩ <;> simp [sendRpcRequestCallHelper, hnr, hsc]
  | ok u =>
    refine ⟨?_, ?_, ?_⟩ <;> simp [sendRpcRequestCallHelper, hnr, hsc]

/-- Witness for C2: fire-and-forget with a succeeding send over concrete
types. -/
theorem c2_no_response_fire_and_forget_witness :
    sendRpcRequestCallHelper (T := Nat) (some ⟨Except.ok (), Except.ok 7, Except.ok ⟨[]⟩⟩)
        "cmd" (0 : Nat) (some ⟨true, 0⟩) (fun n : Nat => Except.ok n) =
      ((0, none), [RpcOp.sendCommand]) := by
  exact (c2_no_response_fire_and_forget ⟨Except.ok (), Except.ok 7, Except.ok ⟨[]⟩⟩
    "cmd" 0 ⟨true, 0⟩ (fun n : Nat => Except.ok n) rfl).2.1 rfl

/-- Claim C3: a nil transport makes the unary helper return the zero value
of `T` together with the non-nil transport-unavailable error, for every
command, payload and options value (nil options included), performing no
transport operation; the definition is total, modelling absence of panics. -/
theorem c3_nil_transport_error {E D T : Type} [Inhabited T] (command : String)
    (data : D) (opts0 : Option RpcOpts) (decode : E → Except String T) :
    sendRpcRequestCallHelper none command data opts0 decode =
      ((default, some nilWshRpcMsg), []) ∧
    ((sendRpcRequestCallHelper none command data opts0 decode).1.2).isSome = true := by
  exact ⟨rfl, rfl⟩

/-- Witness for C3 over concrete types, with nil options. -/
theorem c3_nil_transport_error_witness :
    sendRpcRequestCallHelper (E := Nat) (D := Nat) (T := Nat) none "cmd" 0 none
      (fun n => Except.ok n) = ((0, some nilWshRpcMsg), []) := by
  exact (c3_nil_transport_error (E := Nat) (D := Nat) (T := Nat) "cmd" 0 none
    (fun n => Except.ok n)).1

/-- Claim C4: when the transport yields a finite run of decodable envelopes
and then reports done, the consumer receives exactly their decoded
responses, in transport order, and then the channel is closed with no
further items. -/
theorem c4_ordered_delivery {E D T : Type} [Inhabited T] (rpc : WshRpc E)
    (command : String) (data : D) (opts0 : Option RpcOpts)
    (decode : E → Except String T) (envs : List E) (f : E → T)
    (hpulls : rpc.sendComplexRequestResult = Except.ok ⟨envs.map Except.ok⟩)
    (hdec : ∀ e ∈ envs, decode e = Except.ok (f e)) :
    sendRpcRequestResponseStreamHelper (some rpc) command data opts0 decode =
      (envs.map (fun e => ChanEvent.send ⟨f e, none⟩)) ++ [ChanEvent.close] := by
  simp [sendRpcRequestResponseStreamHelper, hpulls, streamLoop_map_ok decode envs f hdec]

/-- Witness for C4: three responses, received in order, then close. -/
theorem c4_ordered_delivery_witness :
    sendRpcRequestResponseStreamHelper (T := Nat)
        (some ⟨Except.ok (), Except.ok 0, Except.ok ⟨[Except.ok 1, Except.ok 2, Except.ok 3]⟩⟩)
        "cmd" (0 : Nat) none (fun n : Nat => Except.ok n) =
      [ChanEvent.send ⟨1, none⟩, ChanEvent.send ⟨2, none⟩, ChanEvent.send ⟨3, none⟩,
        ChanEvent.close] := by
  exact c4_ordered_delivery ⟨Except.ok (), Except.ok 0, Except.ok ⟨[Except.ok 1, Except.ok 2, Except.ok 3]⟩⟩
    "cmd" 0 none (fun n => Except.ok n) [1, 2, 3] id rfl (fun e _ => rfl)

/-- Claim C5: every value delivered on a channel returned by the streaming
helper (the `rtnErr` paths included) has exactly one component set — either
the error is non-nil and the response is the zero value, or the error is nil
and the response is a decoded envelope. -/
theorem c5_union_exactly_one {E D T : Type} [Inhabited T] (w : Option (WshRpc E))
    (command : String) (data : D) (opts0 : Option RpcOpts)
    (decode : E → Except String T) (u : RespOrErrorUnion T)
    (hmem : ChanEvent.send u ∈
      sendRpcRequestResponseStreamHelper w command data opts0 decode) :
    (u.Response = default ∧ u.Error.isSome = true) ∨
      (u.Error = none ∧ ∃ e, decode e = Except.ok u.Response) := by
  cases w with
  | none =>
    simp [sendRpcRequestResponseStreamHelper, rtnErr] at hmem
    subst hmem
    exact Or.inl ⟨rfl, rfl⟩
  | some rpc =>
    cases hreq : rpc.sendComplexRequestResult with
    | error err =>
      simp [sendRpcRequestResponseStreamHelper, hreq, rtnErr] at hmem
      subst hmem
      exact Or.inl ⟨rfl, rfl⟩
    | ok reqHandler =>
      simp [sendRpcRequestResponseStreamHelper, hreq] at hmem
      exact streamLoop_send_mem decode reqHandler.pulls u hmem

/-- Witness for C5 at the nil-transport error value over concrete types. -/
theorem c5_union_exactly_one_witness :
    (((0 : Nat) = default ∧ (some nilWshRpcMsg).isSome = true) ∨
      ((some nilWshRpcMsg : Option String) = none ∧
        ∃ e : Nat, (Except.ok e : Except String Nat) = Except.ok (0 : Nat))) := by
  exact c5_union_exactly_one (E := Nat) (D := Nat) none "cmd" 0 none
    (fun n : Nat => Except.ok n) ⟨0, some nilWshRpcMsg⟩ (by decide)

/-- When the cmd echo variant of the OS probe misses (fails or prints the
literal placeholder), the probe continues with the PowerShell tail carrying
that variant's error. -/
theorem getClientOs_cmd_miss (p : OsPort) (e : String) (c : Option String)
    (h1 : p.unameS = Except.error e)
    (hm : variantMiss p.echoOS "%OS%" = some c) :
    GetClientOs p = getClientOsPs p.echoEnvOS e c := by
  cases hos : p.echoOS with
  | error ce =>
    simp [variantMiss, hos] at hm
    subst hm
    simp [GetClientOs, h1, hos]
  | ok out =>
    simp [variantMiss, hos] at hm
    by_cases hc : goTrim out = "%OS%"
    · simp [hc] at hm
      subst hm
      simp [GetClientOs, h1, hos, hc]
    · simp [hc] at hm

/-- When the cmd echo variant of the architecture probe misses, the probe
continues with the PowerShell tail carrying that variant's error. -/
theorem getClientArch_cmd_miss (p : ArchPort) (e : String) (c : Option String)
    (h1 : p.unameM = Except.error e)
    (hm : variantMiss p.echoPA "%PROCESSOR_ARCHITECTURE%" = some c) :
    GetClientArch p = getClientArchPs p.echoEnvPA e c := by
  cases hpa : p.echoPA with
  | error ce =>
    simp [variantMiss, hpa] at hm
    subst hm
    simp [GetClientArch, h1, hpa]
  | ok out =>
    simp [variantMiss, hpa] at hm
    by_cases hc : goTrim out = "%PROCESSOR_ARCHITECTURE%"
    · simp [hc] at hm
      subst hm
      simp [GetClientArch, h1, hpa, hc]
    · simp [hc] at hm

/-- When the PowerShell variant of the architecture probe also misses, its
tail returns the aggregate error of the three variants. -/
theorem getClientArchPs_miss (r : CmdResult) (ue : String) (ce q : Option String)
    (h : variantMiss r "$env:PROCESSOR_ARCHITECTURE" = some q) :
    getClientArchPs r ue ce = Except.error ⟨"architecture", ue, ce, q⟩ := by
  cases r with
  | error pe =>
    simp [variantMiss] at h
    subst h
    rfl
  | ok out =>
    simp [variantMiss] at h
    by_cases hc : goTrim out = "$env:PROCESSOR_ARCHITECTURE"
    · simp [hc] at h
      subst h
      simp [getClientArchPs, hc]
    · simp [hc] at h

/-- Claim C6 (amended): a successful `GetClientOs` result produced by the
cmd or PowerShell echo variant is the output lowercased, trimmed and
truncated at the first underscore; a result produced by the `uname -s`
variant is only lowercased and trimmed, with no underscore truncation. -/
theorem c6_os_probe_normalization (p : OsPort) :
    (∀ out, p.unameS = Except.ok out →
      GetClientOs p = Except.ok (goTrim (goToLower out))) ∧
    (∀ e out, p.unameS = Except.error e → p.echoOS = Except.ok out →
      goTrim out ≠ "%OS%" →
      GetClientOs p = Except.ok (firstUnderscoreSegment (goTrim (goToLower out)))) ∧
    (∀ e c out, p.unameS = Except.error e →
      variantMiss p.echoOS "%OS%" = some c →
      p.echoEnvOS = Except.ok out → goTrim out ≠ "$env:OS" →
      GetClientOs p = Except.ok (firstUnderscoreSegment (goTrim (goToLower out)))) := by
  refine ⟨?_, ?_, ?_⟩
  · intro out h
    simp [GetClientOs, h]
  · intro e out h1 h2 h3
    simp [GetClientOs, h1, h2, h3]
  · intro e c out h1 hm h2 h3
    rw [getClientOs_cmd_miss p e c h1 hm]
    simp [getClientOsPs, h2, h3]

/-- Witness for C6 at the PowerShell scenario of the claim: `uname -s`
fails, `echo %OS%` prints the literal placeholder, the PowerShell variant
prints `Windows_NT`, and the probe yields `windows`. -/
theorem c6_os_probe_normalization_witness :
    GetClientOs ⟨Except.error "exit status 1", Except.ok "%OS%", Except.ok "Windows_NT"⟩ =
      Except.ok "windows" := by
  have h := (c6_os_probe_normalization
    ⟨Except.error "exit status 1", Except.ok "%OS%", Except.ok "Windows_NT"⟩).2.2
    "exit status 1" none "Windows_NT" rfl (by decide) rfl (by decide)
  exact h.trans (by decide)

/-- Counterexample to C6 as stated: a successful `uname -s` output
containing an underscore (here `MSYS_NT-10.0`) is lowercased and trimmed
but not truncated at the first underscore, contradicting the claim that
every successful result is truncated there. -/
theorem c6_os_probe_counterexample :
    ¬ (∀ (p : OsPort) (out : String), p.unameS = Except.ok out →
        GetClientOs p = Except.ok (firstUnderscoreSegment (goTrim (goToLower out)))) := by
  intro h
  have h2 := h ⟨Except.ok "MSYS_NT-10.0", Except.error "e", Except.error "e"⟩
    "MSYS_NT-10.0" rfl
  have h3 : GetClientOs ⟨Except.ok "MSYS_NT-10.0", Except.error "e", Except.error "e"⟩ =
      Except.ok "msys_nt-10.0" := by decide
  exact absurd (h3.symm.trans h2) (by decide)

/-- Claim C7: a successful `uname -m` result is lowercased and trimmed with
exactly `x86_64` replaced by `x64` and every other value passed through
unchanged; on `uname` failure the cmd and then PowerShell variants are tried
with literal-placeholder rejection; when all three variants miss the result
is an error aggregating the three per-variant errors. -/
theorem c7_arch_probe (p : ArchPort) :
    (∀ out, p.unameM = Except.ok out →
      GetClientArch p = Except.ok
        (if goTrim (goToLower out) = "x86_64" then "x64" else goTrim (goToLower out))) ∧
    (∀ e out, p.unameM = Except.error e → p.echoPA = Except.ok out →
      goTrim out ≠ "%PROCESSOR_ARCHITECTURE%" →
      GetClientArch p = Except.ok (goTrim (goToLower out))) ∧
    (∀ e c out, p.unameM = Except.error e →
      variantMiss p.echoPA "%PROCESSOR_ARCHITECTURE%" = some c →
      p.echoEnvPA = Except.ok out → goTrim out ≠ "$env:PROCESSOR_ARCHITECTURE" →
      GetClientArch p = Except.ok (goTrim (goToLower out))) ∧
    (∀ e c q, p.unameM = Except.error e →
      variantMiss p.echoPA "%PROCESSOR_ARCHITECTURE%" = some c →
      variantMiss p.echoEnvPA "$env:PROCESSOR_ARCHITECTURE" = some q →
      GetClientArch p = Except.error ⟨"architecture", e, c, q⟩) := by
  refine ⟨?_, ?_, ?_, ?_⟩
  · intro out h
    by_cases hx : goTrim (goToLower out) = "x86_64" <;> simp [GetClientArch, h, hx]
  · intro e out h1 h2 h3
    simp [GetClientArch, h1, h2, h3]
  · intro e c out h1 hm h2 h3
    rw [getClientArch_cmd_miss p e c h1 hm]
    simp [getClientArchPs, h2, h3]
  · intro e c q h1 hm hps
    rw [getClientArch_cmd_miss p e c h1 hm]
    exact getClientArchPs_miss p.echoEnvPA e c q hps

/-- Witness for C7: the `x86_64` substitution, the `arm64` pass-through,
and the aggregate error when every variant misses. -/
theorem c7_arch_probe_witness :
    GetClientArch ⟨Except.ok "x86_64", Except.error "e", Except.error "e"⟩ =
      Except.ok "x64" ∧
    GetClientArch ⟨Except.ok "arm64", Except.error "e", Except.error "e"⟩ =
      Except.ok "arm64" ∧
    GetClientArch ⟨Except.error "e1", Except.ok "%PROCESSOR_ARCHITECTURE%",
        Except.error "e3"⟩ =
      Except.error ⟨"architecture", "e1", none, some "e3"⟩ := by
  refine ⟨?_, ?_, ?_⟩
  · exact ((c7_arch_probe _).1 "x86_64" rfl).trans (by decide)
  · exact ((c7_arch_probe _).1 "arm64" rfl).trans (by decide)
  · exact (c7_arch_probe _).2.2.2 "e1" none (some "e3") rfl (by decide) (by decide)

/-- The bash probe always carries a nil error. -/
theorem hasBashInstalled_snd (p : WslCmdPort) : (hasBashInstalled p).2 = none := by
  by_cases h1 : bashProbeHit p.whichBash <;> by_cases h2 : bashProbeHit p.whereBash <;>
    simp [hasBashInstalled, h1, h2]

/-- Since the bash probe never errors, `CpHostToRemote` always reduces to
its pipe/start/open tail. -/
theorem cpHostToRemote_eq_after (env : CpEnv) (s d : String) :
    CpHostToRemote env s d = cpAfterBashCheck env s := by
  simp [CpHostToRemote, hasBashInstalled_snd]

/-- Characterization of the nil result of the pipe/start/open tail. -/
theorem cpAfterBashCheck_none_iff (env : CpEnv) (s : String) :
    cpAfterBashCheck env s = none ↔
      env.stdinPipe = Except.ok () ∧ env.start = Except.ok () ∧
        env.openSource = Except.ok () := by
  cases hsp : env.stdinPipe with
  | error e => simp [cpAfterBashCheck, hsp]
  | ok u =>
    cases u
    cases hst : env.start with
    | error e => simp [cpAfterBashCheck, hsp, hst]
    | ok u2 =>
      cases u2
      cases hop : env.openSource with
      | error e => simp [cpAfterBashCheck, hsp, hst, hop]
      | ok u3 =>
        cases u3
        simp [cpAfterBashCheck, hsp, hst, hop]

/-- Every non-nil result of the pipe/start/open tail names one of its three
failure points. -/
theorem cpAfterBashCheck_some (env : CpEnv) (s : String) (e : String)
    (h : cpAfterBashCheck env s = some e) :
    env.stdinPipe = Except.error e ∨ env.start = Except.error e ∨
      ∃ e0, env.openSource = Except.error e0 ∧ e = cpOpenErrMsg s e0 := by
  cases hsp : env.stdinPipe with
  | error e1 =>
    simp [cpAfterBashCheck, hsp] at h
    subst h
    exact Or.inl rfl
  | ok u =>
    cases u
    cases hst : env.start with
    | error e2 =>
      simp [cpAfterBashCheck, hsp, hst] at h
      subst h
      exact Or.inr (Or.inl rfl)
    | ok u2 =>
      cases u2
      cases hop : env.openSource with
      | error e3 =>
        simp [cpAfterBashCheck, hsp, hst, hop] at h
        exact Or.inr (Or.inr ⟨e3, rfl, h.symm⟩)
      | ok u3 =>
        cases u3
        simp [cpAfterBashCheck, hsp, hst, hop] at h

/-- Claim C8: `CpHostToRemote` returns a non-nil error only when the bash
probe errors, the stdin pipe cannot be opened, the remote process fails to
start, or the local source file cannot be opened; in every other execution —
whatever the remote process does after the copy begins — it returns nil,
inspecting nothing of the remote outcome. -/
theorem c8_cp_error_cases (env : CpEnv) (s d : String) :
    (CpHostToRemote env s d = none ↔
      env.stdinPipe = Except.ok () ∧ env.start = Except.ok () ∧
        env.openSource = Except.ok ()) ∧
    (∀ e, CpHostToRemote env s d = some e →
      (hasBashInstalled env.bash).2 = some e ∨ env.stdinPipe = Except.error e ∨
        env.start = Except.error e ∨
        ∃ e0, env.openSource = Except.error e0 ∧ e = cpOpenErrMsg s e0) ∧
    (∀ k b, CpHostToRemote ⟨env.bash, env.stdinPipe, env.start, env.openSource, k, b⟩ s d =
      CpHostToRemote env s d) := by
  refine ⟨?_, ?_, ?_⟩
  · rw [cpHostToRemote_eq_after]
    exact cpAfterBashCheck_none_iff env s
  · intro e h
    rw [cpHostToRemote_eq_after] at h
    rcases cpAfterBashCheck_some env s e h with h1 | h1 | h1
    · exact Or.inr (Or.inl h1)
    · exact Or.inr (Or.inr (Or.inl h1))
    · exact Or.inr (Or.inr (Or.inr h1))
  · intro k b
    rw [cpHostToRemote_eq_after, cpHostToRemote_eq_after]
    rfl

/-- Witness for C8: with pipe, start and source open all succeeding, the
call returns nil whatever the remote exit code. -/
theorem c8_cp_error_cases_witness :
    CpHostToRemote ⟨⟨Except.ok "/bin/bash", Except.error "nf"⟩, Except.ok (),
      Except.ok (), Except.ok (), 1, 100⟩ "/tmp/wsh" "~/.waveterm/bin/wsh" = none := by
  exact ((c8_cp_error_cases _ "/tmp/wsh" "~/.waveterm/bin/wsh").1).mpr ⟨rfl, rfl, rfl⟩

/-- Claim C9: `hasBashInstalled` never returns a non-nil error for any port
behavior — it returns true with nil error exactly when `which bash` or
`where.exe bash` succeeds with non-empty output and false with nil error
otherwise — so the bash-probe error branch of `CpHostToRemote` is
unreachable and every call reduces to the pipe/start/open tail. -/
theorem c9_bash_probe_total (p : WslCmdPort) :
    (hasBashInstalled p).2 = none ∧
    ((hasBashInstalled p).1 = true ↔
      (bashProbeHit p.whichBash || bashProbeHit p.whereBash) = true) ∧
    (∀ env s d, CpHostToRemote env s d = cpAfterBashCheck env s) := by
  refine ⟨hasBashInstalled_snd p, ?_, fun env s d => cpHostToRemote_eq_after env s d⟩
  by_cases h1 : bashProbeHit p.whichBash <;> by_cases h2 : bashProbeHit p.whereBash <;>
    simp [hasBashInstalled, h1, h2]

/-- Witness for C9: `which bash` succeeding with non-empty output yields
true with nil error. -/
theorem c9_bash_probe_total_witness :
    (hasBashInstalled ⟨Except.ok "/bin/bash", Except.error "nf"⟩).2 = none ∧
    (hasBashInstalled ⟨Except.ok "/bin/bash", Except.error "nf"⟩).1 = true := by
  have h := c9_bash_probe_total ⟨Except.ok "/bin/bash", Except.error "nf"⟩
  exact ⟨h.1, h.2.1.mpr (by decide)⟩

/-- Claim C10 (amended): `GetWshPath` is total by construction and, provided
no successful variant's trimmed output coincides with the default path
string, it returns the fixed default exactly when `which wsh` fails,
`where.exe wsh` fails, and the cmd-syntax directory probe fails or prints
the sentinel `none`. -/
theorem c10_wsh_path_default (p : WshPathPort)
    (h1 : ∀ out, p.whichWsh = Except.ok out → goTrim out ≠ defaultWshPath)
    (h2 : ∀ out, p.whereWsh = Except.ok out → goTrim out ≠ defaultWshPath)
    (h3 : ∀ out, p.cmdProbe = Except.ok out → goTrim out ≠ "none" →
      goTrim out ≠ defaultWshPath) :
    GetWshPath p = defaultWshPath ↔
      ((∃ e, p.whichWsh = Except.error e) ∧ (∃ e, p.whereWsh = Except.error e) ∧
        ((∃ e, p.cmdProbe = Except.error e) ∨
          (∃ out, p.cmdProbe = Except.ok out ∧ goTrim out = "none"))) := by
  cases hw : p.whichWsh with
  | ok out => simp [GetWshPath, hw, h1 out hw]
  | error e1 =>
    cases hwh : p.whereWsh with
    | ok out => simp [GetWshPath, hw, hwh, h2 out hwh]
    | error e2 =>
      cases hc : p.cmdProbe with
      | error e3 => simp [GetWshPath, hw, hwh, hc]
      | ok out =>
        by_cases hn : goTrim out = "none"
        · simp [GetWshPath, hw, hwh, hc, hn]
        · simp [GetWshPath, hw, hwh, hc, hn, h3 out hc hn]

/-- Witness for C10 (amended): with all three variants failing, the default
path is returned. -/
theorem c10_wsh_path_default_witness :
    GetWshPath ⟨Except.error "nf1", Except.error "nf2", Except.error "nf3"⟩ =
      defaultWshPath := by
  exact (c10_wsh_path_default _ (fun out h => Except.noConfusion h)
    (fun out h => Except.noConfusion h) (fun out h _ => Except.noConfusion h)).mpr
    ⟨⟨"nf1", rfl⟩, ⟨"nf2", rfl⟩, Or.inl ⟨"nf3", rfl⟩⟩

/-- Counterexample to C10 as stated: when `which wsh` succeeds and its
trimmed output happens to equal the default path (wsh installed at the
default location and on the PATH), `GetWshPath` returns the default path
although the first variant did not fail, refuting the "exactly when". -/
theorem c10_wsh_path_counterexample :
    ¬ (∀ p : WshPathPort, GetWshPath p = defaultWshPath →
        (∃ e, p.whichWsh = Except.error e)) := by
  intro h
  obtain ⟨e, he⟩ := h ⟨Except.ok "~/.waveterm/bin/wsh", Except.error "nf",
    Except.error "nf"⟩ (by decide)
  exact Except.noConfusion he
